import Mathlib

/-!
Verification of the entry-metadata core of a zip archive library (`struct.go`).

The development shallowly embeds the source:

* machine integers (`uint16`, `uint32`, `uint64`) are `Nat`, with an explicit
  `% 2 ^ w` exactly where the source's fixed-width arithmetic can wrap, and
  Go's signed `int`/`int64` values are `Int` (conversions to unsigned types
  are embedded as Euclidean remainders, matching two's-complement wrapping;
  Go's truncating division is `Int.tdiv`);
* Go's `time.Time` (always used here in UTC with zero nanoseconds) is embedded
  as the calendar tuple `DateTime`; `time.Date` is `goTimeDate`, which performs
  the standard library's field normalization (`normG`), converts to absolute
  days/seconds (`daysSinceEpoch`, `composeDays`) and decomposes back
  (`absDateCascade`, `absDateMD`, `absToDateTime`) exactly as the Go standard
  library does, so that the `Year()/Month()/.../Second()` accessors are plain
  projections;
* `os.FileMode` is a `Nat` holding the Go standard library's bit layout; the
  constants below reproduce the `os` package definitions contemporaneous with
  this source (`ModeType` is the union of the dir/symlink/pipe/socket/device
  bits, which is what makes the source's char-device branch reachable);
* `os.FileInfo` is the record `GenericFileView`; the error result of
  `FileInfoHeader` is an `Option` (`some` = success, mirroring `return fh, nil`).
-/

/-! ## Go `time` package model -/

/-- A calendar timestamp in UTC with whole seconds, the image of Go's
`time.Time` under its `Year/Month/Day/Hour/Minute/Second` accessors. -/
@[ext]
structure DateTime where
  year : Int
  month : Int
  day : Int
  hour : Int
  minute : Int
  second : Int
  deriving DecidableEq, Repr

/-- Go `time`: `absoluteZeroYear`. -/
def absoluteZeroYear : Int := -292277022399

/-- Go `time.isLeap`. -/
def isLeap (year : Int) : Bool :=
  year % 4 == 0 && (year % 100 != 0 || year % 400 == 0)

/-- Go `time`: the `daysBefore` table (cumulative days at the start of each
zero-based month of a non-leap year). -/
def daysBefore : Nat → Nat
  | 0 => 0
  | 1 => 31
  | 2 => 59
  | 3 => 90
  | 4 => 120
  | 5 => 151
  | 6 => 181
  | 7 => 212
  | 8 => 243
  | 9 => 273
  | 10 => 304
  | 11 => 334
  | _ => 365

/-- Go `time.norm(hi, lo, base)`: carries `lo` into `[0, base)`, adjusting
`hi`.  Division is Go's truncating integer division. -/
def normG (hi lo base : Int) : Int × Int :=
  let hi1 := if lo < 0 then hi - ((-lo - 1).tdiv base + 1) else hi
  let lo1 := if lo < 0 then lo + ((-lo - 1).tdiv base + 1) * base else lo
  let hi2 := if lo1 ≥ base then hi1 + lo1.tdiv base else hi1
  let lo2 := if lo1 ≥ base then lo1 - lo1.tdiv base * base else lo1
  (hi2, lo2)

/-- Go `time.daysSinceEpoch(year)`: days from the absolute zero year to the
start of `year`, computed in `uint64` (the cast of `year - absoluteZeroYear`
to `uint64` and the accumulating arithmetic both wrap modulo `2 ^ 64`). -/
def daysSinceEpoch (year : Int) : Nat :=
  let y := ((year - absoluteZeroYear) % (18446744073709551616 : Int)).toNat
  let n400 := y / 400
  let y1 := y - 400 * n400
  let n100 := y1 / 100
  let y2 := y1 - 100 * n100
  let n4 := y2 / 4
  let y3 := y2 - 4 * n4
  (146097 * n400 + 36524 * n100 + 1461 * n4 + 365 * y3) % 18446744073709551616

/-- The day count built by Go's `time.Date` for normalized fields
(`month ∈ [1,12]`): `daysSinceEpoch` plus days before the month in the year
(plus the Feb 29 of a leap year once March is reached) plus `day - 1`, in
`uint64` arithmetic. -/
def composeDays (year month day : Int) : Nat :=
  let d := daysSinceEpoch year
  let d := d + daysBefore (month - 1).toNat
  let d := if isLeap year ∧ 3 ≤ month then d + 1 else d
  (d + ((day - 1) % (18446744073709551616 : Int)).toNat) % 18446744073709551616

/-- The 400/100/4/1-year cycle peeling of Go's `time.absDate`, mapping a day
count to (years since the absolute zero year, day offset inside the year).
The two `n -= n >> 2` corrections are the source's fix-ups for the last
(leap) year of a 100-year and of a 4-century cycle. -/
def absDateCascade (d : Nat) : Nat × Nat :=
  let n400 := d / 146097
  let y0 := 400 * n400
  let d1 := d - 146097 * n400
  let n100 := d1 / 36524 - d1 / 36524 / 4
  let y1 := y0 + 100 * n100
  let d2 := d1 - 36524 * n100
  let n4 := d2 / 1461
  let y2 := y1 + 4 * n4
  let d3 := d2 - 1461 * n4
  let n1 := d3 / 365 - d3 / 365 / 4
  let y3 := y2 + n1
  let d4 := d3 - 365 * n1
  (y3, d4)

/-- The month/day location of Go's `time.absDate`: find the month of a
zero-based year-day via the `daysBefore` table, special-casing February 29.
The year enters Go's code only through `isLeap(year)`, passed here as `leap`. -/
def absDateMD (leap : Bool) (yday : Nat) : Nat × Nat :=
  if leap ∧ yday = 59 then (2, 29)
  else
    let day0 := if leap ∧ yday > 59 then yday - 1 else yday
    let m0 := day0 / 31
    let endv := daysBefore (m0 + 1)
    let m1 := if day0 ≥ endv then m0 + 1 else m0
    let beg := if day0 ≥ endv then endv else daysBefore m0
    (m1 + 1, day0 - beg + 1)

/-- Go `time.absDate(abs/86400, full)`: year, month and day from a day count. -/
def absDateDays (d : Nat) : Int × Nat × Nat :=
  let c := absDateCascade d
  let year : Int := (c.1 : Int) + absoluteZeroYear
  let md := absDateMD (isLeap year) c.2
  (year, md.1, md.2)

/-- Decomposition of an absolute second count into the calendar tuple, as done
by Go's `Time.date` and `Time.absClock` accessors. -/
def absToDateTime (abs : Nat) : DateTime :=
  let ymd := absDateDays (abs / 86400)
  let daySecs := abs % 86400
  { year := ymd.1
    month := (ymd.2.1 : Int)
    day := (ymd.2.2 : Int)
    hour := ((daySecs / 3600 : Nat) : Int)
    minute := ((daySecs % 3600 / 60 : Nat) : Int)
    second := ((daySecs % 3600 % 60 : Nat) : Int) }

/-- Go `time.Date(year, month, day, hour, min, sec, 0, time.UTC)` followed by
reading the calendar accessors: normalize the fields (`norm` -- the
nanosecond normalization is the identity here since `nsec = 0`), build the
absolute second count in `uint64`, and decompose it again. -/
def goTimeDate (year month day hour min sec : Int) : DateTime :=
  let n1 := normG min sec 60
  let n2 := normG hour n1.1 60
  let n3 := normG day n2.1 24
  let n4 := normG year (month - 1) 12
  let D := composeDays n4.1 (n4.2 + 1) n3.1
  let abs := (D * 86400 + n3.2.toNat * 3600 + n2.2.toNat * 60 + n1.2.toNat) % 18446744073709551616
  absToDateTime abs

/-! ## MS-DOS timestamp codec (`msDosTimeToTime`, `timeToMsDosTime`) -/

/-- `msDosTimeToTime(dosDate, dosTime)` from the source: unpack the bit fields
of the two `uint16` halves and hand them to `time.Date` in UTC. -/
def msDosTimeToTime (dosDate dosTime : Nat) : DateTime :=
  goTimeDate
    ((dosDate >>> 9 + 1980 : Nat) : Int)
    ((dosDate >>> 5 &&& 0xf : Nat) : Int)
    ((dosDate &&& 0x1f : Nat) : Int)
    ((dosTime >>> 11 : Nat) : Int)
    ((dosTime >>> 5 &&& 0x3f : Nat) : Int)
    (((dosTime &&& 0x1f) * 2 : Nat) : Int)

/-- `timeToMsDosTime(t)` from the source: `t` is already in UTC; pack
`day + month<<5 + (year-1980)<<9` and `second/2 + minute<<5 + hour<<11`,
each converted to `uint16` (so reduced modulo `2 ^ 16`). -/
def timeToMsDosTime (t : DateTime) : Nat × Nat :=
  (((t.day + t.month * 2 ^ 5 + (t.year - 1980) * 2 ^ 9) % 65536).toNat,
   ((t.second.tdiv 2 + t.minute * 2 ^ 5 + t.hour * 2 ^ 11) % 65536).toNat)

/-- Days in a calendar month, parametrized by leap-ness (used to state which
`DateTime` tuples are real timestamps). -/
def daysInMonthB (leap : Bool) (month : Nat) : Nat :=
  if month = 2 then (if leap then 29 else 28)
  else if month = 4 ∨ month = 6 ∨ month = 9 ∨ month = 11 then 30
  else 31

/-- Days in the month of a calendar year. -/
def daysInMonth (year month : Int) : Int :=
  (daysInMonthB (isLeap year) month.toNat : Int)

/-! ## Finite verification loop for the month/day table -/

/-- `rangeAll f n = f 0 && f 1 && ... && f (n-1)`. -/
def rangeAll (f : Nat → Bool) : Nat → Bool
  | 0 => true
  | n + 1 => rangeAll f n && f n

/-- One month/day test: the zero-based year-day built from a valid calendar
month/day pair is located back to the same pair by `absDateMD`, and that
year-day is at most 364 (365 only in a leap year). -/
def mdCheck (leap : Bool) (m d : Nat) : Bool :=
  let yday := daysBefore (m - 1) + (if leap ∧ 3 ≤ m then 1 else 0) + (d - 1)
  decide (absDateMD leap yday = (m, d)) &&
    decide (yday ≤ 364 ∨ (yday = 365 ∧ leap = true))

/-- All valid month/day pairs pass `mdCheck` for both leap-ness values. -/
def mdOk : Bool :=
  rangeAll (fun lb =>
    rangeAll (fun dm =>
      rangeAll (fun dd =>
        !(decide (1 + dd ≤ daysInMonthB (lb == 1) (1 + dm))) ||
          mdCheck (lb == 1) (1 + dm) (1 + dd)) 31) 12) 2

/-! ## Constants from the source and from Go's `os` package -/

/-- `CreatorVersion` high-byte platform tags from the source. -/
def creatorFAT : Nat := 0

def creatorUnix : Nat := 3

def creatorNTFS : Nat := 11

def creatorVFAT : Nat := 14

def creatorMacOSX : Nat := 19

/-- `uint32max = (1 << 32) - 1` from the source. -/
def uint32max : Nat := 1 <<< 32 - 1

/-- Go `os.ModeDir`. -/
def modeDir : Nat := 1 <<< 31

/-- Go `os.ModeSymlink`. -/
def modeSymlink : Nat := 1 <<< 27

/-- Go `os.ModeDevice`. -/
def modeDevice : Nat := 1 <<< 26

/-- Go `os.ModeNamedPipe`. -/
def modeNamedPipe : Nat := 1 <<< 25

/-- Go `os.ModeSocket`. -/
def modeSocket : Nat := 1 <<< 24

/-- Go `os.ModeSetuid`. -/
def modeSetuid : Nat := 1 <<< 23

/-- Go `os.ModeSetgid`. -/
def modeSetgid : Nat := 1 <<< 22

/-- Go `os.ModeCharDevice`. -/
def modeCharDevice : Nat := 1 <<< 21

/-- Go `os.ModeSticky`. -/
def modeSticky : Nat := 1 <<< 20

/-- Go `os.ModeType`, the union of the type bits, as defined in the `os`
package contemporaneous with this source (`ModeDir | ModeSymlink |
ModeNamedPipe | ModeSocket | ModeDevice`); the source's
`case os.ModeDevice` with a nested `ModeCharDevice` test is written against
this definition. -/
def modeType : Nat := modeDir ||| modeSymlink ||| modeNamedPipe ||| modeSocket ||| modeDevice

/-- Unix mode-word constants from the source (`s_IFMT` .. `s_ISVTX`,
`msdosDir`, `msdosReadOnly`). -/
def sIFMT : Nat := 0xf000

def sIFSOCK : Nat := 0xc000

def sIFLNK : Nat := 0xa000

def sIFREG : Nat := 0x8000

def sIFBLK : Nat := 0x6000

def sIFDIR : Nat := 0x4000

def sIFCHR : Nat := 0x2000

def sIFIFO : Nat := 0x1000

def sISUID : Nat := 0x800

def sISGID : Nat := 0x400

def sISVTX : Nat := 0x200

def msdosDir : Nat := 0x10

def msdosReadOnly : Nat := 0x01

/-! ## Permission codec (`fileModeToUnixMode`, `unixModeToFileMode`,
`msdosModeToFileMode`) -/

/-- `fileModeToUnixMode(mode)` from the source: switch on `mode & os.ModeType`
(default `s_IFREG`; a device whose `ModeCharDevice` bit is set becomes
`s_IFCHR`), then or-in setuid/setgid/sticky and the low 9 permission bits. -/
def fileModeToUnixMode (mode : Nat) : Nat :=
  let m :=
    if mode &&& modeType = modeDir then sIFDIR
    else if mode &&& modeType = modeSymlink then sIFLNK
    else if mode &&& modeType = modeNamedPipe then sIFIFO
    else if mode &&& modeType = modeSocket then sIFSOCK
    else if mode &&& modeType = modeDevice then
      (if mode &&& modeCharDevice ≠ 0 then sIFCHR else sIFBLK)
    else sIFREG
  let m := if mode &&& modeSetuid ≠ 0 then m ||| sISUID else m
  let m := if mode &&& modeSetgid ≠ 0 then m ||| sISGID else m
  let m := if mode &&& modeSticky ≠ 0 then m ||| sISVTX else m
  m ||| (mode &&& 0o777)

/-- `unixModeToFileMode(m)` from the source: low 9 permission bits, a switch
on `m & s_IFMT` for the type bit, then setgid/setuid/sticky. -/
def unixModeToFileMode (m : Nat) : Nat :=
  let mode := m &&& 0o777
  let mode :=
    if m &&& sIFMT = sIFBLK then mode ||| modeDevice
    else if m &&& sIFMT = sIFCHR then mode ||| modeDevice ||| modeCharDevice
    else if m &&& sIFMT = sIFDIR then mode ||| modeDir
    else if m &&& sIFMT = sIFIFO then mode ||| modeNamedPipe
    else if m &&& sIFMT = sIFLNK then mode ||| modeSymlink
    else if m &&& sIFMT = sIFREG then mode
    else if m &&& sIFMT = sIFSOCK then mode ||| modeSocket
    else mode
  let mode := if m &&& sISGID ≠ 0 then mode ||| modeSetgid else mode
  let mode := if m &&& sISUID ≠ 0 then mode ||| modeSetuid else mode
  let mode := if m &&& sISVTX ≠ 0 then mode ||| modeSticky else mode
  mode

/-- `msdosModeToFileMode(m)` from the source: the DOS directory bit gives a
directory with permission 0o777, otherwise a regular file with 0o666; the
DOS read-only bit clears the write bits (`&^= 0222`, i.e. and-not inside
the 32-bit `os.FileMode`). -/
def msdosModeToFileMode (m : Nat) : Nat :=
  let mode := if m &&& msdosDir ≠ 0 then modeDir ||| 0o777 else 0o666
  if m &&& msdosReadOnly ≠ 0 then mode &&& (0xffffffff ^^^ 0o222) else mode

/-! ## FileHeader and its methods -/

/-- `FileHeader` from the source.  `Extra` is the raw byte sequence,
`password` the password-returning callback (`nil` = `none`), `encryption`,
`ae` and `aesStrength` the unexported encryption fields. -/
structure FileHeader where
  Name : String
  CreatorVersion : Nat
  ReaderVersion : Nat
  Flags : Nat
  Method : Nat
  ModifiedTime : Nat
  ModifiedDate : Nat
  CRC32 : Nat
  CompressedSize : Nat
  UncompressedSize : Nat
  CompressedSize64 : Nat
  UncompressedSize64 : Nat
  Extra : List Nat
  ExternalAttrs : Nat
  Comment : String
  DeferAuth : Bool
  encryption : Nat
  password : Option (Unit → String)
  ae : Nat
  aesStrength : Nat

/-- The zero value of `FileHeader` (all fields at their Go zero values), the
starting point of the composite literal in `FileInfoHeader`. -/
def zeroFileHeader : FileHeader :=
  { Name := "", CreatorVersion := 0, ReaderVersion := 0, Flags := 0, Method := 0,
    ModifiedTime := 0, ModifiedDate := 0, CRC32 := 0, CompressedSize := 0,
    UncompressedSize := 0, CompressedSize64 := 0, UncompressedSize64 := 0, Extra := [],
    ExternalAttrs := 0, Comment := "", DeferAuth := false, encryption := 0,
    password := none, ae := 0, aesStrength := 0 }

/-- The source's trailing-separator test `len(fh.Name) > 0 &&
fh.Name[len(fh.Name)-1] == '/'` (the byte `'/'` is ASCII, so the last byte
is `'/'` exactly when the last character is). -/
def endsWithSlash (s : String) : Bool :=
  s.length != 0 && s.back == '/'

/-- `(*FileHeader).Mode()` from the source: dispatch on the high byte of
`CreatorVersion`; unrecognized platform tags leave the mode zero; a name
ending in `/` ors in the directory bit. -/
def FileHeader.Mode (fh : FileHeader) : Nat :=
  let mode :=
    if fh.CreatorVersion >>> 8 = creatorUnix ∨ fh.CreatorVersion >>> 8 = creatorMacOSX then
      unixModeToFileMode (fh.ExternalAttrs >>> 16)
    else if fh.CreatorVersion >>> 8 = creatorNTFS ∨ fh.CreatorVersion >>> 8 = creatorVFAT ∨
        fh.CreatorVersion >>> 8 = creatorFAT then
      msdosModeToFileMode fh.ExternalAttrs
    else 0
  if endsWithSlash fh.Name then mode ||| modeDir else mode

/-- `(*FileHeader).SetMode(mode)` from the source: keep the low byte of
`CreatorVersion` and set its high byte to the Unix tag; put the packed Unix
mode word in the high 16 bits of `ExternalAttrs` (a `uint32`); or-in the
DOS directory and read-only bits. -/
def FileHeader.SetMode (fh : FileHeader) (mode : Nat) : FileHeader :=
  let cv := fh.CreatorVersion &&& 0xff ||| creatorUnix <<< 8
  let ea := (fileModeToUnixMode mode <<< 16) % 4294967296
  let ea := if mode &&& modeDir ≠ 0 then ea ||| msdosDir else ea
  let ea := if mode &&& 0o200 = 0 then ea ||| msdosReadOnly else ea
  { fh with CreatorVersion := cv, ExternalAttrs := ea }

/-- `(*FileHeader).SetModTime(t)` from the source. -/
def FileHeader.SetModTime (fh : FileHeader) (t : DateTime) : FileHeader :=
  { fh with ModifiedDate := (timeToMsDosTime t).1, ModifiedTime := (timeToMsDosTime t).2 }

/-- `(*FileHeader).ModTime()` from the source. -/
def FileHeader.ModTime (fh : FileHeader) : DateTime :=
  msDosTimeToTime fh.ModifiedDate fh.ModifiedTime

/-- `(*FileHeader).isZip64()` from the source. -/
def FileHeader.isZip64 (fh : FileHeader) : Bool :=
  decide (fh.CompressedSize64 > uint32max) || decide (fh.UncompressedSize64 > uint32max)

/-! ## Generic file view adapter (`os.FileInfo` boundary) -/

/-- Go `path.Base`: `"."` for the empty path, otherwise strip trailing
slashes and keep the part after the last remaining slash (`"/"` if nothing
remains).  `'/'` is ASCII, so working on characters agrees with Go's bytes. -/
def pathBase (s : String) : String :=
  if s = "" then (".")
  else
    let cs := s.toList.reverse.dropWhile (fun c => c = '/')
    let base := cs.takeWhile (fun c => c ≠ '/')
    if base = [] then ("/") else ⟨base.reverse⟩

/-- `headerFileInfo.Name()` from the source: `path.Base(fh.Name)`. -/
def headerFileInfoName (fh : FileHeader) : String :=
  pathBase fh.Name

/-- Go's conversion of a `uint64` to an `int64` (two's-complement wrap). -/
def int64ofUInt64 (n : Nat) : Int :=
  if n < 9223372036854775808 then (n : Int) else (n : Int) - 18446744073709551616

/-- `headerFileInfo.Size()` from the source: `int64(UncompressedSize64)` when
that field is positive, else `int64(UncompressedSize)`. -/
def headerFileInfoSize (fh : FileHeader) : Int :=
  if fh.UncompressedSize64 > 0 then int64ofUInt64 fh.UncompressedSize64
  else (fh.UncompressedSize : Int)

/-- The `os.FileInfo` interface at this boundary: name, byte size (`int64`),
modification time, and `os.FileMode` bits. -/
structure GenericFileView where
  name : String
  size : Int
  modTime : DateTime
  mode : Nat

/-- `FileInfoHeader(fi)` from the source: build a header from a generic file
view -- `uint64(fi.Size())` (wrapping), `SetModTime`, `SetMode`, then
saturate the legacy 32-bit size field at `uint32max`.  The source always
returns a nil error, modelled by `some`. -/
def FileInfoHeader (fi : GenericFileView) : Option FileHeader :=
  let fh : FileHeader :=
    { zeroFileHeader with
        Name := fi.name
        UncompressedSize64 := ((fi.size % (18446744073709551616 : Int))).toNat }
  let fh := fh.SetModTime fi.modTime
  let fh := fh.SetMode fi.mode
  let fh :=
    if fh.UncompressedSize64 > uint32max then { fh with UncompressedSize := uint32max }
    else { fh with UncompressedSize := fh.UncompressedSize64 % 4294967296 }
  some fh

/-! ## The spec's PermissionView -/

/-- Entry types distinguished by the spec's permission codec. -/
inductive EntryType where
  | regular
  | directory
  | symlink
  | namedPipe
  | socket
  | blockDevice
  | charDevice
  deriving DecidableEq, Repr

/-- The spec's `PermissionView`: an entry type, the low 9 permission bits,
and the setuid/setgid/sticky flags. -/
structure PermissionView where
  etype : EntryType
  perm : Nat
  setuid : Bool
  setgid : Bool
  sticky : Bool
  deriving DecidableEq, Repr

/-- The `os.FileMode` type bits of an entry type. -/
def EntryType.toModeBits : EntryType → Nat
  | .regular => 0
  | .directory => modeDir
  | .symlink => modeSymlink
  | .namedPipe => modeNamedPipe
  | .socket => modeSocket
  | .blockDevice => modeDevice
  | .charDevice => modeDevice ||| modeCharDevice

/-- The `os.FileMode` word of a `PermissionView`. -/
def PermissionView.toFileMode (v : PermissionView) : Nat :=
  v.etype.toModeBits ||| (if v.setuid then modeSetuid else 0) |||
    (if v.setgid then modeSetgid else 0) ||| (if v.sticky then modeSticky else 0) ||| v.perm

/-- Read a `PermissionView` back out of an `os.FileMode` word. -/
def viewOfFileMode (m : Nat) : PermissionView :=
  { etype :=
      if m &&& modeDir ≠ 0 then .directory
      else if m &&& modeSymlink ≠ 0 then .symlink
      else if m &&& modeNamedPipe ≠ 0 then .namedPipe
      else if m &&& modeSocket ≠ 0 then .socket
      else if m &&& modeDevice ≠ 0 then
        (if m &&& modeCharDevice ≠ 0 then .charDevice else .blockDevice)
      else .regular
    perm := m &&& 0o777
    setuid := m &&& modeSetuid ≠ 0
    setgid := m &&& modeSetgid ≠ 0
    sticky := m &&& modeSticky ≠ 0 }

/-- `f` holds of every entry type. -/
def typesAll (f : EntryType → Bool) : Bool :=
  f .regular && f .directory && f .symlink && f .namedPipe && f .socket &&
    f .blockDevice && f .charDevice

/-- `f` holds of both booleans. -/
def boolsAll (f : Bool → Bool) : Bool :=
  f false && f true

/-- Finite check: every `PermissionView` with `perm = 0` survives the
encode/decode pipeline `fileModeToUnixMode` then `unixModeToFileMode`, and
each stage of the pipeline leaves the low 9 bits clear.  (The permission
bits are then carried through the pipeline by the or-distribution lemmas
below.) -/
def viewsOk : Bool :=
  typesAll fun t =>
    boolsAll fun su =>
      boolsAll fun sg =>
        boolsAll fun st =>
          let X := PermissionView.toFileMode ⟨t, 0, su, sg, st⟩
          let U := fileModeToUnixMode X
          let W := unixModeToFileMode U
          decide (viewOfFileMode W = ⟨t, 0, su, sg, st⟩) && decide (X &&& 511 = 0) &&
            decide (U &&& 511 = 0) && decide (W &&& 511 = 0)

/-! ## Helper lemmas for the timestamp codec -/

theorem rangeAll_eq_true {f : Nat → Bool} {n : Nat} (h : rangeAll f n = true) :
    ∀ i, i < n → f i = true := by
  induction n with
  | zero => intro i hi; omega
  | succ k ih =>
    intro i hi
    rw [rangeAll, Bool.and_eq_true] at h
    rcases Nat.lt_succ_iff_lt_or_eq.mp hi with h' | h'
    · exact ih h.1 i h'
    · subst h'; exact h.2

theorem cascade_inverse (a c e s k : Nat) (hc : c ≤ 3) (he : e ≤ 24) (hs : s ≤ 3)
    (hk : k ≤ 364 ∨ (k = 365 ∧ s = 3 ∧ (e ≠ 24 ∨ c = 3))) :
    absDateCascade (146097 * a + 36524 * c + 1461 * e + 365 * s + k)
      = (400 * a + 100 * c + 4 * e + s, k) := by
  simp only [absDateCascade]
  set D := 146097 * a + 36524 * c + 1461 * e + 365 * s + k with hD
  have h1 : D / 146097 = a := Nat.div_eq_of_lt_le (by omega) (by omega)
  set d1 := D - 146097 * (D / 146097) with hd1
  have h2 : d1 = 36524 * c + 1461 * e + 365 * s + k := by omega
  have h3 : d1 / 36524 - d1 / 36524 / 4 = c := by
    rcases hk with hk | ⟨hk1, hk2, hk3⟩
    · have hj : d1 / 36524 = c := Nat.div_eq_of_lt_le (by omega) (by omega)
      rw [hj]; omega
    · by_cases he24 : e = 24
      · have hc3 : c = 3 := by rcases hk3 with h | h <;> omega
        have hlo : 4 * 36524 ≤ d1 := by omega
        have hhi : d1 < (4 + 1) * 36524 := by omega
        rw [Nat.div_eq_of_lt_le hlo hhi]; omega
      · have hlo : c * 36524 ≤ d1 := by omega
        have hhi : d1 < (c + 1) * 36524 := by omega
        rw [Nat.div_eq_of_lt_le hlo hhi]; omega
  rw [h3]
  set d2 := d1 - 36524 * c with hd2
  have h4 : d2 = 1461 * e + 365 * s + k := by omega
  have h5 : d2 / 1461 = e := Nat.div_eq_of_lt_le (by omega) (by omega)
  rw [h5]
  set d3 := d2 - 1461 * e with hd3
  have h6 : d3 = 365 * s + k := by omega
  have h7 : d3 / 365 - d3 / 365 / 4 = s := by
    rcases hk with hk | ⟨hk1, hk2, hk3⟩
    · have hj : d3 / 365 = s := Nat.div_eq_of_lt_le (by omega) (by omega)
      rw [hj]; omega
    · have hj : d3 / 365 = 4 := Nat.div_eq_of_lt_le (by omega) (by omega)
      rw [hj]; omega
  rw [h7]
  refine Prod.ext ?_ ?_ <;> simp only [] <;> omega

theorem daysSinceEpoch_decomp (a c e s : Nat) (hc : c ≤ 3) (he : e ≤ 24) (hs : s ≤ 3)
    (hy : 400 * a + 100 * c + 4 * e + s ≤ 292277024507) :
    daysSinceEpoch (absoluteZeroYear + ((400 * a + 100 * c + 4 * e + s : Nat) : Int))
      = 146097 * a + 36524 * c + 1461 * e + 365 * s := by
  simp only [daysSinceEpoch, absoluteZeroYear]
  have hext : ((-292277022399 + ((400 * a + 100 * c + 4 * e + s : Nat) : Int) - -292277022399)
      % (18446744073709551616 : Int)).toNat = 400 * a + 100 * c + 4 * e + s := by omega
  rw [hext]
  set y := 400 * a + 100 * c + 4 * e + s with hy'
  have h1 : y / 400 = a := Nat.div_eq_of_lt_le (by omega) (by omega)
  rw [h1]
  set y1 := y - 400 * a with hy1
  have h2 : y1 = 100 * c + 4 * e + s := by omega
  have h3 : y1 / 100 = c := Nat.div_eq_of_lt_le (by omega) (by omega)
  rw [h3]
  set y2 := y1 - 100 * c with hy2
  have h4 : y2 = 4 * e + s := by omega
  have h5 : y2 / 4 = e := Nat.div_eq_of_lt_le (by omega) (by omega)
  rw [h5]
  have hmod : 146097 * a + 36524 * c + 1461 * e + 365 * (y2 - 4 * e) < 18446744073709551616 := by
    omega
  omega

theorem isLeap_decomp (a c e s : Nat) (hc : c ≤ 3) (he : e ≤ 24) (hs : s ≤ 3)
    (hL : isLeap (absoluteZeroYear + ((400 * a + 100 * c + 4 * e + s : Nat) : Int)) = true) :
    s = 3 ∧ (e ≠ 24 ∨ c = 3) := by
  simp only [isLeap, absoluteZeroYear, Bool.and_eq_true, Bool.or_eq_true, beq_iff_eq,
    bne_iff_ne] at hL
  obtain ⟨h4, h100⟩ := hL
  constructor
  · omega
  · rcases h100 with h | h
    · left; omega
    · right; omega

set_option maxRecDepth 4000

theorem mdOk_true : mdOk = true := by decide

theorem md_correct (leap : Bool) (m d : Nat) (hm1 : 1 ≤ m) (hm2 : m ≤ 12)
    (hd1 : 1 ≤ d) (hd2 : d ≤ daysInMonthB leap m) :
    absDateMD leap (daysBefore (m - 1) + (if leap ∧ 3 ≤ m then 1 else 0) + (d - 1)) = (m, d) ∧
      (daysBefore (m - 1) + (if leap ∧ 3 ≤ m then 1 else 0) + (d - 1) ≤ 364 ∨
       (daysBefore (m - 1) + (if leap ∧ 3 ≤ m then 1 else 0) + (d - 1) = 365 ∧ leap = true)) := by
  have hlb : ∀ lb, lb < 2 → ∀ dm, dm < 12 → ∀ dd, dd < 31 →
      (!(decide (1 + dd ≤ daysInMonthB (lb == 1) (1 + dm))) ||
        mdCheck (lb == 1) (1 + dm) (1 + dd)) = true := by
    intro lb hlb dm hdm dd hdd
    have h0 := rangeAll_eq_true mdOk_true lb hlb
    have h1 := rangeAll_eq_true h0 dm hdm
    exact rangeAll_eq_true h1 dd hdd
  have hlb' : ((if leap then (1 : Nat) else 0) == 1) = leap := by cases leap <;> decide
  have key := hlb (if leap then 1 else 0) (by cases leap <;> decide) (m - 1) (by omega) (d - 1) (by
    have : d ≤ 31 := le_trans hd2 (by unfold daysInMonthB; split <;> [split; split] <;> omega)
    omega)
  rw [hlb'] at key
  have hm : 1 + (m - 1) = m := by omega
  have hd : 1 + (d - 1) = d := by omega
  rw [hm, hd] at key
  rw [Bool.or_eq_true, Bool.not_eq_true', decide_eq_false_iff_not] at key
  rcases key with key | key
  · exact absurd hd2 (by omega)
  · unfold mdCheck at key
    rw [Bool.and_eq_true, decide_eq_true_eq, decide_eq_true_eq] at key
    exact key

theorem normG_id (hi lo base : Int) (h0 : 0 ≤ lo) (h1 : lo < base) :
    normG hi lo base = (hi, lo) := by
  simp only [normG]
  rw [if_neg (by omega), if_neg (by omega), if_neg (by omega), if_neg (by omega)]

set_option maxHeartbeats 1000000 in
theorem daysBefore_le (i : Nat) : daysBefore i ≤ 365 := by
  unfold daysBefore; split <;> omega

set_option maxHeartbeats 8000000 in
theorem goTimeDate_valid (y m d h mi s : Int)
    (hy1 : 1980 ≤ y) (hy2 : y ≤ 2107)
    (hm1 : 1 ≤ m) (hm2 : m ≤ 12)
    (hd1 : 1 ≤ d) (hd2 : d ≤ daysInMonth y m)
    (hh1 : 0 ≤ h) (hh2 : h < 24)
    (hmi1 : 0 ≤ mi) (hmi2 : mi < 60)
    (hs1 : 0 ≤ s) (hs2 : s < 60) :
    goTimeDate y m d h mi s = ⟨y, m, d, h, mi, s⟩ := by
  -- Nat views of the bounded fields
  set M := m.toNat with hM
  set DD := d.toNat with hDD
  set yoff := (y - absoluteZeroYear).toNat with hyoff
  set a := yoff / 400 with ha
  set c := yoff % 400 / 100 with hc
  set e := yoff % 400 % 100 / 4 with he
  set sv := yoff % 400 % 100 % 4 with hsv
  have hdec : yoff = 400 * a + 100 * c + 4 * e + sv := by omega
  have hc3 : c ≤ 3 := by omega
  have he24 : e ≤ 24 := by omega
  have hsv3 : sv ≤ 3 := by omega
  have hyoffb : yoff ≤ 292277024507 := by
    simp only [hyoff, absoluteZeroYear]; omega
  have hyform : y = absoluteZeroYear + ((400 * a + 100 * c + 4 * e + sv : Nat) : Int) := by
    simp only [absoluteZeroYear] at *; omega
  -- month/day hypotheses at Nat level
  have hMb : 1 ≤ M ∧ M ≤ 12 := by omega
  have hDb : 1 ≤ DD ∧ DD ≤ daysInMonthB (isLeap y) M := by
    unfold daysInMonth at hd2
    constructor
    · omega
    · have : m.toNat = M := rfl
      rw [this] at hd2
      omega
  -- the year-day and its location
  have hmd := md_correct (isLeap y) M DD hMb.1 hMb.2 hDb.1 hDb.2
  set yday := daysBefore (M - 1) + (if isLeap y ∧ 3 ≤ M then 1 else 0) + (DD - 1) with hyday
  have hydayB : yday ≤ 365 := by
    rcases hmd.2 with hb | hb
    · omega
    · omega
  -- compose
  have hdse : daysSinceEpoch y = 146097 * a + 36524 * c + 1461 * e + 365 * sv := by
    rw [hyform]
    exact daysSinceEpoch_decomp a c e sv hc3 he24 hsv3 (by omega)
  have hcompose : composeDays y m d
      = 146097 * a + 36524 * c + 1461 * e + 365 * sv + yday := by
    simp only [composeDays, hdse]
    have hm1t : (m - 1).toNat = M - 1 := by omega
    rw [hm1t]
    have hB := daysBefore_le (M - 1)
    by_cases hL3 : isLeap y ∧ 3 ≤ m
    · rw [if_pos hL3]
      have : (if isLeap y ∧ 3 ≤ M then 1 else 0) = 1 := if_pos ⟨hL3.1, by omega⟩
      simp only [hyday, this]
      omega
    · rw [if_neg hL3]
      have : (if isLeap y ∧ 3 ≤ M then 1 else 0) = 0 := by
        rw [if_neg]; intro hcon; exact hL3 ⟨hcon.1, by omega⟩
      simp only [hyday, this]
      omega
  -- bound for the uint64 arithmetic
  have hSb : 146097 * a + 36524 * c + 1461 * e + 365 * sv ≤ 106751991166859 := by omega
  -- the cascade hypothesis
  have hkcascade : yday ≤ 364 ∨ (yday = 365 ∧ sv = 3 ∧ (e ≠ 24 ∨ c = 3)) := by
    rcases hmd.2 with hb | hb
    · left; omega
    · right
      refine ⟨hb.1, ?_⟩
      have hL : isLeap (absoluteZeroYear + ((400 * a + 100 * c + 4 * e + sv : Nat) : Int)) = true := by
        rw [← hyform]; exact hb.2
      exact isLeap_decomp a c e sv hc3 he24 hsv3 hL
  have hADD : absDateDays (146097 * a + 36524 * c + 1461 * e + 365 * sv + yday)
      = (y, M, DD) := by
    simp only [absDateDays]
    rw [cascade_inverse a c e sv yday hc3 he24 hsv3 hkcascade]
    have hyr : (((400 * a + 100 * c + 4 * e + sv, yday) : Nat × Nat).1 : Int) + absoluteZeroYear = y := by
      simp only [Prod.fst]; omega
    rw [hyr]
    simp only [Prod.fst, Prod.snd]
    rw [hmd.1]
  -- now the whole pipeline
  simp only [goTimeDate]
  rw [normG_id mi s 60 hs1 hs2, normG_id h mi 60 hmi1 hmi2, normG_id d h 24 hh1 hh2,
    normG_id y (m - 1) 12 (by omega) (by omega)]
  simp only [Prod.fst, Prod.snd]
  have hmm : m - 1 + 1 = m := by ring
  rw [hmm, hcompose]
  simp only [absToDateTime]
  have habs : ((146097 * a + 36524 * c + 1461 * e + 365 * sv + yday) * 86400
      + h.toNat * 3600 + mi.toNat * 60 + s.toNat) % 18446744073709551616
      = (146097 * a + 36524 * c + 1461 * e + 365 * sv + yday) * 86400
      + h.toNat * 3600 + mi.toNat * 60 + s.toNat := by omega
  rw [habs]
  have hdiv : ((146097 * a + 36524 * c + 1461 * e + 365 * sv + yday) * 86400
      + h.toNat * 3600 + mi.toNat * 60 + s.toNat) / 86400
      = 146097 * a + 36524 * c + 1461 * e + 365 * sv + yday := by omega
  have hmod : ((146097 * a + 36524 * c + 1461 * e + 365 * sv + yday) * 86400
      + h.toNat * 3600 + mi.toNat * 60 + s.toNat) % 86400
      = h.toNat * 3600 + mi.toNat * 60 + s.toNat := by omega
  rw [hdiv, hmod, hADD]
  clear habs hdiv hmod hADD hcompose hdse hmd hkcascade hSb hydayB hyoffb hdec hc3 he24 hsv3 hyform hMb hDb hmm hyday
  clear hsv he hc ha hyoff
  clear sv e c a yoff
  clear_value M DD
  refine DateTime.ext ?_ ?_ ?_ ?_ ?_ ?_ <;> dsimp only <;> omega

theorem daysInMonthB_le (leap : Bool) (m : Nat) : daysInMonthB leap m ≤ 31 := by
  unfold daysInMonthB
  split
  · split <;> omega
  · split <;> omega

set_option maxHeartbeats 1000000 in
/-- C2: en/decode round trip for real timestamps with even seconds and year
in [1980, 2107]. -/
theorem msdos_time_roundtrip (t : DateTime)
    (hy1 : 1980 ≤ t.year) (hy2 : t.year ≤ 2107)
    (hm1 : 1 ≤ t.month) (hm2 : t.month ≤ 12)
    (hd1 : 1 ≤ t.day) (hd2 : t.day ≤ daysInMonth t.year t.month)
    (hh1 : 0 ≤ t.hour) (hh2 : t.hour < 24)
    (hmi1 : 0 ≤ t.minute) (hmi2 : t.minute < 60)
    (hs1 : 0 ≤ t.second) (hs2 : t.second < 60) (hs3 : t.second % 2 = 0) :
    msDosTimeToTime (timeToMsDosTime t).1 (timeToMsDosTime t).2 = t := by
  obtain ⟨y, m, d, h, mi, s⟩ := t
  simp only at hy1 hy2 hm1 hm2 hd1 hd2 hh1 hh2 hmi1 hmi2 hs1 hs2 hs3
  have hdm : d ≤ 31 := by
    have h31 := daysInMonthB_le (isLeap y) m.toNat
    unfold daysInMonth at hd2
    omega
  simp only [timeToMsDosTime, msDosTimeToTime]
  have hs2' : s.tdiv 2 = s / 2 := Int.tdiv_eq_ediv hs1 (by norm_num)
  rw [hs2']
  have hfd : ((d + m * 2 ^ 5 + (y - 1980) * 2 ^ 9) % 65536).toNat
      = d.toNat + m.toNat * 32 + (y.toNat - 1980) * 512 := by omega
  have hft : ((s / 2 + mi * 2 ^ 5 + h * 2 ^ 11) % 65536).toNat
      = s.toNat / 2 + mi.toNat * 32 + h.toNat * 2048 := by omega
  rw [hfd, hft]
  set FD := d.toNat + m.toNat * 32 + (y.toNat - 1980) * 512 with hFD
  set FT := s.toNat / 2 + mi.toNat * 32 + h.toNat * 2048 with hFT
  have hmask : ∀ x k : Nat, x &&& (2 ^ k - 1) = x % 2 ^ k := fun x k =>
    Nat.and_pow_two_sub_one_eq_mod x k
  have e1 : ((FD >>> 9 + 1980 : Nat) : Int) = y := by
    rw [Nat.shiftRight_eq_div_pow]
    omega
  have e2 : ((FD >>> 5 &&& 0xf : Nat) : Int) = m := by
    rw [Nat.shiftRight_eq_div_pow, show (0xf : Nat) = 2 ^ 4 - 1 by norm_num, hmask]
    omega
  have e3 : ((FD &&& 0x1f : Nat) : Int) = d := by
    rw [show (0x1f : Nat) = 2 ^ 5 - 1 by norm_num, hmask]
    omega
  have e4 : ((FT >>> 11 : Nat) : Int) = h := by
    rw [Nat.shiftRight_eq_div_pow]
    omega
  have e5 : ((FT >>> 5 &&& 0x3f : Nat) : Int) = mi := by
    rw [Nat.shiftRight_eq_div_pow, show (0x3f : Nat) = 2 ^ 6 - 1 by norm_num, hmask]
    omega
  have e6 : (((FT &&& 0x1f) * 2 : Nat) : Int) = s := by
    rw [show (0x1f : Nat) = 2 ^ 5 - 1 by norm_num, hmask]
    omega
  rw [e1, e2, e3, e4, e5, e6]
  exact goTimeDate_valid y m d h mi s hy1 hy2 hm1 hm2 hd1 hd2 hh1 hh2 hmi1 hmi2 hs1 hs2

theorem msdos_time_roundtrip_witness :
    ((1 : Int) ≤ 29 ∧ (29 : Int) ≤ daysInMonth 2004 2) ∧
      msDosTimeToTime (timeToMsDosTime ⟨2004, 2, 29, 23, 59, 58⟩).1
        (timeToMsDosTime ⟨2004, 2, 29, 23, 59, 58⟩).2 = ⟨2004, 2, 29, 23, 59, 58⟩ :=
  ⟨⟨by norm_num, by decide⟩,
    msdos_time_roundtrip ⟨2004, 2, 29, 23, 59, 58⟩ (by norm_num) (by norm_num) (by norm_num)
      (by norm_num) (by norm_num) (by decide) (by norm_num) (by norm_num) (by norm_num)
      (by norm_num) (by norm_num) (by norm_num) (by decide)⟩

/-- C7 counterexample: packed date `0x4A21`, packed time `0x5600` does not
decode to 2005-01-01 10:48:00 UTC (the date's year bits are 37, giving
2017). -/
theorem msdos_example_counterexample :
    msDosTimeToTime 0x4A21 0x5600 ≠ ⟨2005, 1, 1, 10, 48, 0⟩ := by
  decide

/-- C7 (amended): packed date `0x4A21`, packed time `0x5600` decodes to
2017-01-01 10:48:00 UTC, and re-encoding that timestamp reproduces exactly
the packed pair `(0x4A21, 0x5600)`. -/
theorem msdos_example_amended :
    msDosTimeToTime 0x4A21 0x5600 = ⟨2017, 1, 1, 10, 48, 0⟩ ∧
      timeToMsDosTime ⟨2017, 1, 1, 10, 48, 0⟩ = (0x4A21, 0x5600) :=
  ⟨by decide, by decide⟩

/-! ## Bit-level helpers for the permission codec -/

theorem lor_left_comm (a b c : Nat) : a ||| (b ||| c) = b ||| (a ||| c) := by
  rw [← Nat.lor_assoc, Nat.lor_comm a b, Nat.lor_assoc]

theorem shiftLeft_shiftRight_self (a k : Nat) : a <<< k >>> k = a := by
  rw [Nat.shiftLeft_eq, Nat.shiftRight_eq_div_pow, Nat.mul_div_cancel _ (Nat.two_pow_pos _)]

theorem lor_shiftRight {a b k : Nat} (hb : b < 2 ^ k) : (a <<< k ||| b) >>> k = a := by
  apply Nat.eq_of_testBit_eq
  intro i
  simp only [Nat.testBit_shiftRight, Nat.testBit_or, Nat.testBit_shiftLeft]
  have hbf : b.testBit (k + i) = false :=
    Nat.testBit_lt_two_pow (lt_of_lt_of_le hb (Nat.pow_le_pow_right (by norm_num) (by omega)))
  simp [hbf, Nat.add_sub_cancel_left]

theorem lor_lor_shiftRight {a b c k : Nat} (hb : b < 2 ^ k) (hc : c < 2 ^ k) :
    (a <<< k ||| b ||| c) >>> k = a := by
  rw [Nat.lor_assoc]
  exact lor_shiftRight (Nat.or_lt_two_pow hb hc)

theorem and_two_pow_ne (x i : Nat) : x &&& 2 ^ i ≠ 0 ↔ x.testBit i = true := by
  constructor
  · intro h
    by_contra hb
    apply h
    apply Nat.eq_of_testBit_eq
    intro j
    rw [Bool.not_eq_true] at hb
    simp only [Nat.testBit_and, Nat.testBit_two_pow, Nat.zero_testBit]
    by_cases hij : i = j
    · subst hij
      simp [hb]
    · simp [hij]
  · intro h hx
    have hbit : (x &&& 2 ^ i).testBit i = true := by
      simp [Nat.testBit_and, Nat.testBit_two_pow, h]
    rw [hx] at hbit
    simp [Nat.zero_testBit] at hbit

theorem low9_testBit {x : Nat} (hx : x &&& 511 = 0) {i : Nat} (hi : i < 9) :
    x.testBit i = false := by
  have h := congrArg (fun n => n.testBit i) hx
  simp only [Nat.testBit_and, Nat.zero_testBit] at h
  rwa [show (511 : Nat) = 2 ^ 9 - 1 by norm_num, Nat.testBit_two_pow_sub_one,
    decide_eq_true hi, Bool.and_true] at h

theorem lt_two_pow_testBit {p : Nat} (hp : p < 512) {i : Nat} (hi : 9 ≤ i) :
    p.testBit i = false :=
  Nat.testBit_lt_two_pow
    (lt_of_lt_of_le (by omega : p < 2 ^ 9) (Nat.pow_le_pow_right (by norm_num) hi))

/-- Or-ing in 9 low bits does not change a mask whose low 9 bits are clear. -/
theorem or_low_and_mask {x p M : Nat} (hp : p < 512) (hM : M &&& 511 = 0) :
    (x ||| p) &&& M = x &&& M := by
  apply Nat.eq_of_testBit_eq
  intro i
  simp only [Nat.testBit_and, Nat.testBit_or]
  by_cases hi : i < 9
  · simp [low9_testBit hM hi]
  · simp [lt_two_pow_testBit hp (by omega : 9 ≤ i)]

/-- Extracting the low 9 bits after or-ing them into a word whose low 9 bits
are clear gives them back. -/
theorem or_low_and_511 {x p : Nat} (hp : p < 512) (hx : x &&& 511 = 0) :
    (x ||| p) &&& 511 = p := by
  apply Nat.eq_of_testBit_eq
  intro i
  simp only [Nat.testBit_and]
  rw [show (511 : Nat) = 2 ^ 9 - 1 by norm_num, Nat.testBit_two_pow_sub_one]
  by_cases hi : i < 9
  · simp [Nat.testBit_or, low9_testBit hx hi, decide_eq_true hi]
  · simp [decide_eq_false hi, lt_two_pow_testBit hp (by omega : 9 ≤ i)]

/-- `fileModeToUnixMode` carries the low 9 permission bits through unchanged. -/
theorem fileModeToUnixMode_or {x p : Nat} (hp : p < 512) (hx : x &&& 511 = 0) :
    fileModeToUnixMode (x ||| p) = fileModeToUnixMode x ||| p := by
  simp only [fileModeToUnixMode]
  rw [or_low_and_mask hp (by decide : modeType &&& 511 = 0),
    or_low_and_mask hp (by decide : modeCharDevice &&& 511 = 0),
    or_low_and_mask hp (by decide : modeSetuid &&& 511 = 0),
    or_low_and_mask hp (by decide : modeSetgid &&& 511 = 0),
    or_low_and_mask hp (by decide : modeSticky &&& 511 = 0),
    or_low_and_511 hp hx, hx, Nat.or_zero]

set_option maxHeartbeats 1600000 in
/-- `unixModeToFileMode` carries the low 9 permission bits through unchanged
(they end up on the left of the or-chain it builds). -/
theorem unixModeToFileMode_or {u p : Nat} (hp : p < 512) (hu : u &&& 511 = 0) :
    unixModeToFileMode (u ||| p) = p ||| unixModeToFileMode u := by
  simp only [unixModeToFileMode]
  rw [or_low_and_mask hp (by decide : sIFMT &&& 511 = 0),
    or_low_and_mask hp (by decide : sISGID &&& 511 = 0),
    or_low_and_mask hp (by decide : sISUID &&& 511 = 0),
    or_low_and_mask hp (by decide : sISVTX &&& 511 = 0),
    or_low_and_511 hp hu, hu]
  apply Nat.eq_of_testBit_eq
  intro i
  simp only [apply_ite (fun n => Nat.testBit n i), Nat.testBit_or, Nat.zero_testBit]
  by_cases hi : i < 9
  · simp only [low9_testBit (by decide : modeDevice &&& 511 = 0) hi,
      low9_testBit (by decide : modeCharDevice &&& 511 = 0) hi,
      low9_testBit (by decide : modeDir &&& 511 = 0) hi,
      low9_testBit (by decide : modeNamedPipe &&& 511 = 0) hi,
      low9_testBit (by decide : modeSymlink &&& 511 = 0) hi,
      low9_testBit (by decide : modeSocket &&& 511 = 0) hi,
      low9_testBit (by decide : modeSetgid &&& 511 = 0) hi,
      low9_testBit (by decide : modeSetuid &&& 511 = 0) hi,
      low9_testBit (by decide : modeSticky &&& 511 = 0) hi,
      Bool.or_false, Bool.false_or, ite_self]
  · simp only [lt_two_pow_testBit hp (by omega : 9 ≤ i), Bool.or_false, Bool.false_or]

/-- `viewOfFileMode` reads the or-ed-in low 9 bits as the permission field and
is otherwise unaffected by them. -/
theorem viewOfFileMode_or {w p : Nat} (hp : p < 512) (hw : w &&& 511 = 0) :
    viewOfFileMode (w ||| p)
      = ⟨(viewOfFileMode w).etype, p, (viewOfFileMode w).setuid,
         (viewOfFileMode w).setgid, (viewOfFileMode w).sticky⟩ := by
  simp only [viewOfFileMode]
  rw [or_low_and_mask hp (by decide : modeDir &&& 511 = 0),
    or_low_and_mask hp (by decide : modeSymlink &&& 511 = 0),
    or_low_and_mask hp (by decide : modeNamedPipe &&& 511 = 0),
    or_low_and_mask hp (by decide : modeSocket &&& 511 = 0),
    or_low_and_mask hp (by decide : modeDevice &&& 511 = 0),
    or_low_and_mask hp (by decide : modeCharDevice &&& 511 = 0),
    or_low_and_mask hp (by decide : modeSetuid &&& 511 = 0),
    or_low_and_mask hp (by decide : modeSetgid &&& 511 = 0),
    or_low_and_mask hp (by decide : modeSticky &&& 511 = 0),
    or_low_and_511 hp hw]

set_option maxRecDepth 4000 in
theorem byte_helper : ∀ x < 256, ((x ||| 3 <<< 8) >>> 8 = 3) ∧ ((x ||| 3 <<< 8) &&& 255 = x) := by
  decide

theorem cv_high (c : Nat) : (c &&& 0xff ||| creatorUnix <<< 8) >>> 8 = 3 :=
  (byte_helper (c &&& 0xff) (lt_of_le_of_lt Nat.and_le_right (by norm_num))).1

theorem cv_low (c : Nat) : (c &&& 0xff ||| creatorUnix <<< 8) &&& 0xff = c &&& 0xff :=
  (byte_helper (c &&& 0xff) (lt_of_le_of_lt Nat.and_le_right (by norm_num))).2

set_option maxHeartbeats 2000000 in
theorem fileModeToUnixMode_lt (m : Nat) : fileModeToUnixMode m < 2 ^ 16 := by
  have hperm : m &&& 0o777 < 2 ^ 16 := lt_of_le_of_lt Nat.and_le_right (by norm_num)
  simp only [fileModeToUnixMode]
  repeat' split
  all_goals exact Nat.or_lt_two_pow (by decide) hperm

set_option maxHeartbeats 2000000 in
theorem viewsOk_true : viewsOk = true := by decide

theorem typesAll_forall {f : EntryType → Bool} (h : typesAll f = true) : ∀ t, f t = true := by
  intro t
  simp only [typesAll, Bool.and_eq_true] at h
  cases t <;> tauto

theorem boolsAll_forall {f : Bool → Bool} (h : boolsAll f = true) : ∀ b, f b = true := by
  intro b
  simp only [boolsAll, Bool.and_eq_true] at h
  cases b <;> tauto

/-- The encode/decode pipeline of the Unix permission path returns every
well-formed `PermissionView`. -/
theorem views_roundtrip (t : EntryType) (su sg st : Bool) (p : Nat) (hp : p < 512) :
    viewOfFileMode (unixModeToFileMode (fileModeToUnixMode
      (PermissionView.toFileMode ⟨t, p, su, sg, st⟩))) = ⟨t, p, su, sg, st⟩ := by
  have h0 := typesAll_forall viewsOk_true t
  have h1 := boolsAll_forall h0 su
  have h2 := boolsAll_forall h1 sg
  have h3 := boolsAll_forall h2 st
  simp only [Bool.and_eq_true, decide_eq_true_eq] at h3
  obtain ⟨⟨⟨hrt, hX⟩, hU⟩, hW⟩ := h3
  have htf : PermissionView.toFileMode ⟨t, p, su, sg, st⟩
      = PermissionView.toFileMode ⟨t, 0, su, sg, st⟩ ||| p := by
    simp only [PermissionView.toFileMode, Nat.or_zero]
  rw [htf, fileModeToUnixMode_or hp hX, unixModeToFileMode_or hp hU,
    Nat.lor_comm p _, viewOfFileMode_or hp hW, hrt]

/-! ## SetMode support lemmas -/

theorem shiftLeft16_mod {u : Nat} (hu : u < 2 ^ 16) :
    (u <<< 16) % 4294967296 = u <<< 16 := by
  apply Nat.mod_eq_of_lt
  rw [Nat.shiftLeft_eq]
  omega

theorem setMode_attrs_high (fh : FileHeader) (m : Nat) :
    (fh.SetMode m).ExternalAttrs >>> 16 = fileModeToUnixMode m := by
  have hu := fileModeToUnixMode_lt m
  simp only [FileHeader.SetMode]
  rw [shiftLeft16_mod hu]
  split_ifs
  · exact lor_lor_shiftRight (by decide) (by decide)
  · exact lor_shiftRight (by decide)
  · exact lor_shiftRight (by decide)
  · exact shiftLeft_shiftRight_self _ _

theorem setMode_dosdir (fh : FileHeader) (m : Nat) :
    ((fh.SetMode m).ExternalAttrs &&& msdosDir ≠ 0) ↔ m &&& modeDir ≠ 0 := by
  have hu := fileModeToUnixMode_lt m
  simp only [FileHeader.SetMode]
  rw [shiftLeft16_mod hu, show (msdosDir : Nat) = 2 ^ 4 by decide, and_two_pow_ne]
  have h16 : Nat.testBit 16 4 = true := by decide
  have h1 : Nat.testBit 1 4 = false := by decide
  by_cases hdir : m &&& modeDir ≠ 0 <;> by_cases hro : m &&& 0o200 = 0 <;>
    simp [hdir, hro, Nat.testBit_or, Nat.testBit_shiftLeft, h16, h1,
      show msdosDir = (16 : Nat) from rfl, show msdosReadOnly = (1 : Nat) from rfl]

theorem setMode_dosro (fh : FileHeader) (m : Nat) :
    ((fh.SetMode m).ExternalAttrs &&& msdosReadOnly ≠ 0) ↔ m &&& 0o200 = 0 := by
  have hu := fileModeToUnixMode_lt m
  simp only [FileHeader.SetMode]
  rw [shiftLeft16_mod hu, show (msdosReadOnly : Nat) = 2 ^ 0 by decide, and_two_pow_ne]
  have h16 : Nat.testBit 16 0 = false := by decide
  have h1 : Nat.testBit 1 0 = true := by decide
  by_cases hdir : m &&& modeDir ≠ 0 <;> by_cases hro : m &&& 0o200 = 0 <;>
    simp [hdir, hro, Nat.testBit_or, Nat.testBit_shiftLeft, h16, h1,
      show msdosDir = (16 : Nat) from rfl, show msdosReadOnly = (1 : Nat) from rfl]

/-! ## Theorems for the permission claims -/

/-- C5: `SetMode` writes both encodings: Unix platform tag in the high byte
of `CreatorVersion`, the packed Unix mode word in the high 16 bits of
`ExternalAttrs`, the DOS directory bit iff the mode is a directory, and the
DOS read-only bit iff owner-write (0o200) is absent. -/
theorem setMode_dual_write (fh : FileHeader) (m : Nat) :
    (fh.SetMode m).CreatorVersion >>> 8 = creatorUnix ∧
    (fh.SetMode m).ExternalAttrs >>> 16 = fileModeToUnixMode m ∧
    ((fh.SetMode m).ExternalAttrs &&& msdosDir ≠ 0 ↔ m &&& modeDir ≠ 0) ∧
    ((fh.SetMode m).ExternalAttrs &&& msdosReadOnly ≠ 0 ↔ m &&& 0o200 = 0) :=
  ⟨cv_high fh.CreatorVersion, setMode_attrs_high fh m, setMode_dosdir fh m, setMode_dosro fh m⟩

/-- C3: encoding a `PermissionView` with `SetMode` and decoding the header
back with `Mode` (Unix platform path; name without a trailing slash)
reproduces the view; the DOS bits or-ed into the low byte do not disturb
the decode. -/
theorem setMode_mode_roundtrip (v : PermissionView) (fh : FileHeader)
    (hp : v.perm < 512) (hns : endsWithSlash fh.Name = false) :
    viewOfFileMode ((fh.SetMode v.toFileMode).Mode) = v := by
  obtain ⟨t, p, su, sg, st⟩ := v
  simp only at hp
  simp only [FileHeader.Mode]
  rw [if_neg (by rw [show (fh.SetMode (PermissionView.toFileMode ⟨t, p, su, sg, st⟩)).Name
        = fh.Name from rfl, hns]; exact Bool.false_ne_true)]
  have hcv3 : (fh.SetMode (PermissionView.toFileMode ⟨t, p, su, sg, st⟩)).CreatorVersion >>> 8
      = creatorUnix := cv_high fh.CreatorVersion
  rw [if_pos (Or.inl hcv3)]
  rw [setMode_attrs_high]
  exact views_roundtrip t su sg st p hp

/-- C4: a name ending in `/` always yields a mode with the directory bit,
whatever `ExternalAttrs` and `CreatorVersion` hold. -/
theorem mode_trailing_slash_dir (fh : FileHeader) (h : endsWithSlash fh.Name = true) :
    fh.Mode &&& modeDir ≠ 0 := by
  simp only [FileHeader.Mode]
  rw [if_pos h, show (modeDir : Nat) = 2 ^ 31 by decide, and_two_pow_ne]
  simp only [Nat.testBit_or, Bool.or_eq_true]
  exact Or.inr (by decide)

/-- C6: under a DOS-family platform tag (NTFS/VFAT/FAT) and no trailing
slash, `Mode` decodes the legacy DOS attribute bits: the directory bit gives
`ModeDir | 0o777` (read-only clears the write bits to `0o555`), otherwise a
regular file with `0o666` (read-only: `0o444`). -/
theorem mode_dos_decode (fh : FileHeader)
    (hcv : fh.CreatorVersion >>> 8 = creatorNTFS ∨ fh.CreatorVersion >>> 8 = creatorVFAT ∨
      fh.CreatorVersion >>> 8 = creatorFAT)
    (hns : endsWithSlash fh.Name = false) :
    fh.Mode = (if fh.ExternalAttrs &&& 0x10 ≠ 0 then
                 (if fh.ExternalAttrs &&& 0x01 ≠ 0 then modeDir ||| 0o555 else modeDir ||| 0o777)
               else
                 (if fh.ExternalAttrs &&& 0x01 ≠ 0 then 0o444 else 0o666)) := by
  simp only [FileHeader.Mode]
  rw [if_neg (by rw [hns]; exact Bool.false_ne_true)]
  rw [if_neg (by rcases hcv with h | h | h <;> rw [h] <;> simp [creatorUnix, creatorMacOSX,
    creatorNTFS, creatorVFAT, creatorFAT])]
  rw [if_pos hcv]
  simp only [msdosModeToFileMode, show msdosDir = (0x10 : Nat) from rfl,
    show msdosReadOnly = (0x01 : Nat) from rfl]
  split_ifs <;> decide

/-- C10: `SetMode` only touches `CreatorVersion` (and there only the high
byte) and `ExternalAttrs`; every other field, and the low byte of
`CreatorVersion`, is preserved. -/
theorem setMode_frame (fh : FileHeader) (m : Nat) :
    (fh.SetMode m).Name = fh.Name ∧ (fh.SetMode m).ReaderVersion = fh.ReaderVersion ∧
    (fh.SetMode m).Flags = fh.Flags ∧ (fh.SetMode m).Method = fh.Method ∧
    (fh.SetMode m).ModifiedTime = fh.ModifiedTime ∧
    (fh.SetMode m).ModifiedDate = fh.ModifiedDate ∧
    (fh.SetMode m).CRC32 = fh.CRC32 ∧ (fh.SetMode m).CompressedSize = fh.CompressedSize ∧
    (fh.SetMode m).UncompressedSize = fh.UncompressedSize ∧
    (fh.SetMode m).CompressedSize64 = fh.CompressedSize64 ∧
    (fh.SetMode m).UncompressedSize64 = fh.UncompressedSize64 ∧
    (fh.SetMode m).Extra = fh.Extra ∧ (fh.SetMode m).Comment = fh.Comment ∧
    (fh.SetMode m).DeferAuth = fh.DeferAuth ∧ (fh.SetMode m).encryption = fh.encryption ∧
    (fh.SetMode m).password = fh.password ∧ (fh.SetMode m).ae = fh.ae ∧
    (fh.SetMode m).aesStrength = fh.aesStrength ∧
    (fh.SetMode m).CreatorVersion &&& 0xff = fh.CreatorVersion &&& 0xff :=
  ⟨rfl, rfl, rfl, rfl, rfl, rfl, rfl, rfl, rfl, rfl, rfl, rfl, rfl, rfl, rfl, rfl, rfl, rfl,
    cv_low fh.CreatorVersion⟩

/-- C1: `isZip64` is true exactly when either 64-bit size strictly exceeds
`0xffffffff`; both sizes at exactly `0xffffffff` give false, and
`0x100000000` in either size gives true. -/
theorem isZip64_iff :
    (∀ fh : FileHeader, fh.isZip64 = true ↔
      0xffffffff < fh.CompressedSize64 ∨ 0xffffffff < fh.UncompressedSize64) ∧
    FileHeader.isZip64 {zeroFileHeader with
      CompressedSize64 := 0xffffffff, UncompressedSize64 := 0xffffffff} = false ∧
    FileHeader.isZip64 {zeroFileHeader with CompressedSize64 := 0x100000000} = true ∧
    FileHeader.isZip64 {zeroFileHeader with UncompressedSize64 := 0x100000000} = true := by
  refine ⟨fun fh => ?_, rfl, rfl, rfl⟩
  have h32 : uint32max = 0xffffffff := by decide
  simp [FileHeader.isZip64, h32, Bool.or_eq_true, decide_eq_true_eq]

/-- C8: `FileInfoHeader` always succeeds; it copies the view's size into
`UncompressedSize64` and saturates the legacy field at the all-ones
sentinel `0xffffffff` instead of wrapping. -/
theorem fileInfoHeader_sizes :
    (∀ fi : GenericFileView, (FileInfoHeader fi).isSome = true) ∧
    ∀ fi : GenericFileView, 0 ≤ fi.size → fi.size < 9223372036854775808 →
      ∃ fh, FileInfoHeader fi = some fh ∧
        fh.UncompressedSize64 = fi.size.toNat ∧
        fh.UncompressedSize =
          (if 0xffffffff < fi.size.toNat then 0xffffffff else fi.size.toNat) := by
  constructor
  · intro fi; rfl
  · intro fi h0 h1
    refine ⟨_, rfl, ?_, ?_⟩
    · simp only [FileInfoHeader, FileHeader.SetModTime, FileHeader.SetMode,
        apply_ite (fun fh : FileHeader => fh.UncompressedSize64), ite_self]
      omega
    · simp only [FileInfoHeader, FileHeader.SetModTime, FileHeader.SetMode,
        apply_ite (fun fh : FileHeader => fh.UncompressedSize), ite_self]
      have h32 : uint32max = 0xffffffff := by decide
      simp only [h32]
      split_ifs <;> omega

/-- C9 counterexample: for `UncompressedSize64 = 2^63` the generic view's
size is the wrapped (negative) `int64`, not the field's value. -/
theorem headerFileInfo_size_counterexample :
    headerFileInfoSize {zeroFileHeader with UncompressedSize64 := 9223372036854775808}
      ≠ (9223372036854775808 : Int) := by decide

/-- C9 (amended): the generic view reports `path.Base` of the name, and --
when `UncompressedSize64` is within `int64` range -- the value of
`UncompressedSize64` if non-zero, else the legacy 32-bit field. -/
theorem headerFileInfo_view (fh : FileHeader)
    (h : fh.UncompressedSize64 < 9223372036854775808) :
    headerFileInfoName fh = pathBase fh.Name ∧
    headerFileInfoSize fh = (if fh.UncompressedSize64 ≠ 0 then (fh.UncompressedSize64 : Int)
      else (fh.UncompressedSize : Int)) := by
  refine ⟨rfl, ?_⟩
  simp only [headerFileInfoSize, int64ofUInt64]
  split_ifs <;> first | rfl | omega

/-! ## Witnesses -/

theorem setMode_mode_roundtrip_witness :
    ((0o754 : Nat) < 512 ∧ endsWithSlash ("f") = false) ∧
      viewOfFileMode ((FileHeader.SetMode {zeroFileHeader with Name := "f"}
        (PermissionView.toFileMode ⟨.charDevice, 0o754, true, false, true⟩)).Mode)
        = ⟨.charDevice, 0o754, true, false, true⟩ :=
  ⟨⟨by norm_num, by decide⟩,
    setMode_mode_roundtrip ⟨.charDevice, 0o754, true, false, true⟩
      {zeroFileHeader with Name := "f"} (by norm_num) (by decide)⟩

theorem mode_trailing_slash_dir_witness :
    endsWithSlash ("d/") = true ∧
      FileHeader.Mode {zeroFileHeader with Name := "d/"} &&& modeDir ≠ 0 :=
  ⟨by decide, mode_trailing_slash_dir {zeroFileHeader with Name := "d/"} (by decide)⟩

theorem mode_dos_decode_witness :
    ((2816 : Nat) >>> 8 = creatorNTFS ∧ endsWithSlash ("x") = false) ∧
      FileHeader.Mode { zeroFileHeader with Name := "x", CreatorVersion := 2816, ExternalAttrs := 0x01 } = 0o444 :=
  ⟨⟨by decide, by decide⟩, by
    have h := mode_dos_decode
      { zeroFileHeader with Name := "x", CreatorVersion := 2816, ExternalAttrs := 0x01 }
      (Or.inl (by decide)) (by decide)
    rw [h]; decide⟩

theorem fileInfoHeader_sizes_witness :
    ((0 : Int) ≤ 5 ∧ (5 : Int) < 9223372036854775808) ∧
      ∃ fh, FileInfoHeader ⟨"f", 5, ⟨2020, 1, 1, 0, 0, 0⟩, 0⟩ = some fh ∧
        fh.UncompressedSize64 = (5 : Int).toNat ∧
        fh.UncompressedSize = (if 0xffffffff < (5 : Int).toNat then 0xffffffff
          else (5 : Int).toNat) :=
  ⟨⟨by norm_num, by norm_num⟩,
    fileInfoHeader_sizes.2 ⟨"f", 5, ⟨2020, 1, 1, 0, 0, 0⟩, 0⟩ (by norm_num) (by norm_num)⟩

theorem headerFileInfo_view_witness :
    ((7 : Nat) < 9223372036854775808) ∧
      (headerFileInfoName {zeroFileHeader with Name := "a/b", UncompressedSize64 := 7}
          = pathBase ("a/b") ∧
        headerFileInfoSize {zeroFileHeader with Name := "a/b", UncompressedSize64 := 7}
          = (if (7 : Nat) ≠ 0 then ((7 : Nat) : Int)
            else (({ zeroFileHeader with Name := "a/b", UncompressedSize64 := 7 } : FileHeader).UncompressedSize : Int))) :=
  ⟨by norm_num,
    headerFileInfo_view {zeroFileHeader with Name := "a/b", UncompressedSize64 := 7}
      (by norm_num)⟩
